import Mathlib

/-!
Verification of the BullMQ runtime-benchmark harness.

The development shallowly embeds the driver logic of the two benchmark
scripts (`runtime-comparison.ts` and `benchmark.js`): payload generation,
the parallel-batch and chunked-bulk submission loops, the worker-completion
counter, the elapsed-time / rate computations (including the JavaScript
`Math.round` and division-by-zero behaviour), the success/failure resource
teardown traces, and the recursive Fibonacci used as synthetic CPU work.
Machine numbers are modelled as exact rationals; the special JavaScript
values (NaN, Infinity) that division by zero can produce are modelled
explicitly.
-/

set_option autoImplicit false

namespace BullBench

/-! ### Payload generation

`runtime-comparison.ts` line 78 and `benchmark.js` line 38/57 build each
job as `('test-job', { index: i, data: 'x'.repeat(100) })`. -/

/-- The job payload `{ index, data }`. -/
structure JobPayload where
  index : Nat
  data : String
deriving DecidableEq, Repr

/-- The fixed filler string `'x'.repeat(100)`. -/
def filler : String := String.mk (List.replicate 100 'x')

/-- Payload generation: `generate(i) = { index: i, data: 'x'.repeat(100) }`. -/
def generate (i : Nat) : JobPayload := ⟨i, filler⟩

/-! ### Batch scheduler (`benchmarkJobAddition`, lines 70–81)

```
const numBatches = Math.ceil(numJobs / batchSize);
for (let i = 0; i < numBatches; i++) {
  const batchStart = i * batchSize;
  const batchEnd = Math.min(batchStart + batchSize, numJobs);
  const currentBatchSize = batchEnd - batchStart;
  for (let j = 0; j < currentBatchSize; j++)
    promises.push(queue.add('test-job', { index: batchStart + j, ... }));
  await Promise.all(promises);
}
```
-/

/-- The batch count `Math.ceil(numJobs / batchSize)`, as Nat ceiling division. -/
def numBatches (total batchSize : Nat) : Nat := (total + batchSize - 1) / batchSize

/-- The job indices issued by batch `i`: `batchStart + j` for
`j < currentBatchSize`, where `batchStart = i * batchSize` and
`currentBatchSize = min (batchStart + batchSize) total - batchStart`. -/
def batchIndices (total batchSize i : Nat) : List Nat :=
  (List.range (min (i * batchSize + batchSize) total - i * batchSize)).map
    (fun j => i * batchSize + j)

/-- All batches issued by the parallel-batch addition loop. -/
def additionBatches (total batchSize : Nat) : List (List Nat) :=
  (List.range (numBatches total batchSize)).map (batchIndices total batchSize)

/-- The full sequence of `(name, payload)` pairs submitted by the
parallel-batch addition loop. -/
def additionJobs (total batchSize : Nat) : List (String × JobPayload) :=
  (additionBatches total batchSize).flatten.map (fun i => ("test-job", generate i))

/-! ### Chunked bulk addition (`benchmarkBulkAddition`, lines 107–116)

```
const chunkSize = 10000;
for (let i = 0; i < numJobs; i += chunkSize) {
  const end = Math.min(i + chunkSize, numJobs);
  for (let j = i; j < end; j++)
    jobs.push({ name: 'test-job', data: { index: j, data: 'x'.repeat(100) } });
  await queue.addBulk(jobs);
}
```
The loop visits `i = k * chunkSize` for `k < ⌈numJobs / chunkSize⌉`, and
chunk `k` pushes indices `i .. min (i + chunkSize) numJobs - 1`, which is
exactly `batchIndices numJobs chunkSize k`. -/

/-- The chunks submitted by the bulk-addition loop. -/
def bulkChunks (total chunkSize : Nat) : List (List Nat) :=
  (List.range (numBatches total chunkSize)).map (batchIndices total chunkSize)

/-- The full sequence of `(name, payload)` pairs submitted by the chunked
bulk-addition loop. -/
def bulkJobs (total chunkSize : Nat) : List (String × JobPayload) :=
  (bulkChunks total chunkSize).flatten.map (fun i => ("test-job", generate i))

/-! ### Arithmetic facts about the batch bounds -/

theorem numBatches_eq (total batchSize : Nat) (hb : 0 < batchSize) :
    numBatches total batchSize
      = total / batchSize + (if total % batchSize = 0 then 0 else 1) := by
  rcases Nat.eq_zero_or_pos total with h0 | ht
  · subst h0
    simp [numBatches, Nat.div_eq_of_lt (by omega : batchSize - 1 < batchSize)]
  · have hdm := Nat.div_add_mod total batchSize
    set d := total / batchSize with hd
    set r := total % batchSize with hr
    have hrlt : r < batchSize := Nat.mod_lt _ hb
    rcases Nat.eq_zero_or_pos r with h | h
    · have htot : total = batchSize * d := by omega
      have : total + batchSize - 1 = (batchSize - 1) + batchSize * d := by omega
      rw [numBatches, this, Nat.add_mul_div_left _ _ hb,
        Nat.div_eq_of_lt (by omega : batchSize - 1 < batchSize)]
      simp [h]
    · have htot : total = batchSize * d + r := by omega
      have : total + batchSize - 1 = ((r - 1) + batchSize) + batchSize * d := by
        omega
      rw [numBatches, this, Nat.add_mul_div_left _ _ hb, Nat.add_div_right _ hb,
        Nat.div_eq_of_lt (by omega : r - 1 < batchSize)]
      simp [Nat.pos_iff_ne_zero.mp h]
      omega

theorem mul_lt_of_lt_numBatches {total batchSize i : Nat} (hb : 0 < batchSize)
    (hi : i < numBatches total batchSize) : i * batchSize < total := by
  have h1 : i + 1 ≤ numBatches total batchSize := hi
  have h2 : (i + 1) * batchSize ≤ total + batchSize - 1 :=
    (Nat.le_div_iff_mul_le hb).mp h1
  have h3 : 1 ≤ numBatches total batchSize := by omega
  have h4 : 1 * batchSize ≤ total + batchSize - 1 :=
    (Nat.le_div_iff_mul_le hb).mp h3
  have ht : 0 < total := by omega
  have : i * batchSize + batchSize ≤ total + batchSize - 1 := by
    calc i * batchSize + batchSize = (i + 1) * batchSize := by ring
    _ ≤ total + batchSize - 1 := h2
  omega

theorem total_le_numBatches_mul (total batchSize : Nat) (hb : 0 < batchSize) :
    total ≤ numBatches total batchSize * batchSize := by
  by_contra h
  push_neg at h
  have h1 : (numBatches total batchSize + 1) * batchSize ≤ total + batchSize - 1 := by
    have := hb
    calc (numBatches total batchSize + 1) * batchSize
        = numBatches total batchSize * batchSize + batchSize := by ring
    _ ≤ total + batchSize - 1 := by omega
  have h2 : numBatches total batchSize + 1 ≤ numBatches total batchSize :=
    (Nat.le_div_iff_mul_le hb).mpr h1
  omega

/-- Batch `i` is the contiguous index range starting at `i * batchSize`. -/
theorem batchIndices_eq_range' (total batchSize i : Nat) :
    batchIndices total batchSize i
      = List.range' (i * batchSize)
          (min (i * batchSize + batchSize) total - i * batchSize) := by
  rw [batchIndices, List.range'_eq_map_range]

theorem batchIndices_length (total batchSize i : Nat) :
    (batchIndices total batchSize i).length
      = min (i * batchSize + batchSize) total - i * batchSize := by
  simp [batchIndices]

/-- Concatenating the first `n` batches yields the contiguous range
`0 .. min (n * batchSize) total - 1`. -/
theorem join_take_batches (total batchSize : Nat) (hb : 0 < batchSize) :
    ∀ n, n ≤ numBatches total batchSize →
      ((List.range n).map (batchIndices total batchSize)).flatten
        = List.range (min (n * batchSize) total) := by
  intro n
  induction n with
  | zero => intro _; simp
  | succ n ih =>
    intro hn
    have hlt : n < numBatches total batchSize := hn
    have hnb : n * batchSize < total := mul_lt_of_lt_numBatches hb hlt
    have hmin : min (n * batchSize) total = n * batchSize := by omega
    rw [List.range_succ, List.map_append, List.flatten_append, ih (le_of_lt hlt)]
    simp only [List.map_singleton, List.flatten_cons, List.flatten_nil, List.append_nil]
    rw [batchIndices_eq_range', hmin, List.range_eq_range', List.range_eq_range']
    have harith : min (n * batchSize + batchSize) total - n * batchSize + n * batchSize
        = min ((n + 1) * batchSize) total := by
      have : (n + 1) * batchSize = n * batchSize + batchSize := by ring
      omega
    calc List.range' 0 (n * batchSize)
          ++ List.range' (n * batchSize)
              (min (n * batchSize + batchSize) total - n * batchSize)
        = List.range' 0 (min (n * batchSize + batchSize) total - n * batchSize
            + n * batchSize) := by
          simpa using List.range'_append_1 0 (n * batchSize)
            (min (n * batchSize + batchSize) total - n * batchSize)
    _ = List.range' 0 (min ((n + 1) * batchSize) total) := by rw [harith]

/-- The whole addition loop issues exactly the indices `0 .. total - 1`,
in order. -/
theorem join_additionBatches (total batchSize : Nat) (hb : 0 < batchSize) :
    (additionBatches total batchSize).flatten = List.range total := by
  have h := join_take_batches total batchSize hb (numBatches total batchSize)
    (le_refl _)
  have hmin : min (numBatches total batchSize * batchSize) total = total := by
    have := total_le_numBatches_mul total batchSize hb
    omega
  rw [additionBatches]
  rw [h, hmin]

/-! ### Completion tracker (`benchmarkJobProcessing`, lines 159–175)

```
let processed = 0;
worker.on('completed', async () => {
  processed++;
  if (processed === numJobs) { ... resolve(...); }
});
```
One notification increments the counter and signals exactly when the new
count equals the expected total. -/

/-- One completion notification: new count, and whether this notification
fires the `processed === numJobs` signal. -/
def trackerStep (expected count : Nat) : Nat × Bool :=
  (count + 1, count + 1 == expected)

/-- Run the tracker over `k` completion notifications, starting from
`processed = 0`; returns the final count and the number of times the
signal fired. -/
def trackerRun (expected : Nat) : Nat → Nat × Nat
  | 0 => (0, 0)
  | k + 1 =>
    let p := trackerRun expected k
    let s := trackerStep expected p.1
    (s.1, p.2 + (if s.2 then 1 else 0))

/-! ### JavaScript numbers and the rate computation

`runtime-comparison.ts` computes `Math.round(numJobs / (elapsed / 1000))`
(lines 88–93 etc.); `benchmark.js` computes `(count / duration) * 1000`
(lines 41–47, 62–64). JavaScript division by zero yields `Infinity`,
`-Infinity` or `NaN`, never an exception; finite arithmetic is modelled
exactly over `ℚ`. -/

/-- A JavaScript number: a finite value, an infinity, or `NaN`. -/
inductive JSNum where
  | num : ℚ → JSNum
  | posInf : JSNum
  | negInf : JSNum
  | nan : JSNum
deriving DecidableEq, Repr

/-- JavaScript division of two finite numbers: `x / 0` is `Infinity`,
`-Infinity` or `NaN` depending on the sign of `x`; otherwise exact. -/
def jsDiv (x y : ℚ) : JSNum :=
  if y ≠ 0 then .num (x / y)
  else if 0 < x then .posInf
  else if x < 0 then .negInf
  else .nan

/-- The expression `count / (elapsed / 1000)` as JavaScript evaluates it (the inner
division is by the nonzero literal 1000, hence finite). -/
def jsRate (count elapsed : ℚ) : JSNum := jsDiv count (elapsed / 1000)

/-- The exact rate `count / (elapsed / 1000)` over `ℚ`. -/
def rateExact (count elapsed : ℚ) : ℚ := count / (elapsed / 1000)

/-- The rounded rate `Math.round(count / (elapsed / 1000))`: JavaScript `Math.round` rounds
half towards `+∞`, which is Mathlib's `round` (`⌊x + 1/2⌋`). -/
def rateRounded (count elapsed : ℚ) : ℤ := round (rateExact count elapsed)

/-! ### Benchmark results

`runtime-comparison.ts` builds `{ name, jobs, timeMs, rate }` with
`rate: Math.round(numJobs / (elapsed / 1000))`; `benchmark.js` builds
`{ duration, jobsPerSecond, count }` with
`jobsPerSecond = (count / duration) * 1000` (no rounding). -/

/-- The `BenchmarkResult` record of `runtime-comparison.ts` (lines 39–44). -/
structure BenchmarkResult where
  name : String
  jobs : Nat
  timeMs : ℚ
  rate : ℚ
deriving DecidableEq, Repr

/-- Result constructed by `benchmarkJobAddition` (lines 88–93). -/
def jobAdditionResult (numJobs batchSize : Nat) (elapsed : ℚ) : BenchmarkResult :=
  { name := "Job Addition (" ++ toString batchSize ++ " parallel)"
    jobs := numJobs
    timeMs := elapsed
    rate := ((rateRounded (numJobs : ℚ) elapsed : ℤ) : ℚ) }

/-- Result constructed by `benchmarkFlowProducer` (lines 263–268):
`jobs: numFlows * 3` and `rate: Math.round((numFlows * 3) / (elapsed / 1000))`. -/
def flowProducerResult (numFlows : Nat) (elapsed : ℚ) : BenchmarkResult :=
  { name := "Flow Producer (parent + 2 children)"
    jobs := numFlows * 3
    timeMs := elapsed
    rate := ((rateRounded ((numFlows : ℚ) * 3) elapsed : ℤ) : ℚ) }

/-- Result record of `benchmark.js` (`{ duration, jobsPerSecond, count }`). -/
structure JsBenchResult where
  duration : ℚ
  jobsPerSecond : ℚ
  count : Nat
deriving DecidableEq, Repr

/-- Result constructed by `benchmarkAddJobs` in `benchmark.js`
(lines 41–47): `jobsPerSecond = (count / duration) * 1000`, unrounded. -/
def benchmarkAddJobsResult (count : Nat) (duration : ℚ) : JsBenchResult :=
  { duration := duration
    jobsPerSecond := ((count : ℚ) / duration) * 1000
    count := count }

/-- Result record of `benchmarkFlows` in `benchmark.js`
(`{ duration, flowsPerSecond, count }`, lines 133–141):
`flowsPerSecond = (count / duration) * 1000`, where `count` is the number
of flows, not the number of jobs. -/
structure JsFlowResult where
  duration : ℚ
  flowsPerSecond : ℚ
  count : Nat
deriving DecidableEq, Repr

/-- Result constructed by `benchmarkFlows` in `benchmark.js`. -/
def benchmarkFlowsResult (count : Nat) (duration : ℚ) : JsFlowResult :=
  { duration := duration
    flowsPerSecond := ((count : ℚ) / duration) * 1000
    count := count }

/-! ### Fibonacci (`benchmarkJobProcessingWithWork`, line 202)

`const fib = (n) => n <= 1 ? n : fib(n - 1) + fib(n - 2);` -/

/-- The handler's recursive Fibonacci. -/
def fib (n : Nat) : Nat :=
  if n ≤ 1 then n else fib (n - 1) + fib (n - 2)
termination_by n
decreasing_by
  all_goals omega

/-! ### Resource teardown traces (`benchmarkJobAddition`, lines 61–94)

The scenario body is a plain `async` function with no `try`/`finally`:

```
await cleanup(queueName);
... batches: queue.add(...) / await Promise.all(promises) ...
const elapsed = Date.now() - start;
await cleanup(queueName);
await queue.close();
return { ... };
```

A rejected `queue.add` promise makes the `await Promise.all` throw; the
remaining statements (including the final `cleanup` and `queue.close`) do
not run and the error propagates. `fails i = true` means the submission of
job index `i` rejects. -/

/-- An observable operation performed on the external queue resources. -/
inductive Op where
  | cleanup : Op
  | add : Nat → Op
  | closeQueue : Op
deriving DecidableEq, Repr

/-- Run the batch loop: within a batch all `queue.add` calls are issued
before `Promise.all` is awaited, so a failing batch still issues all of its
submissions; a failure aborts the loop. Returns the trace of operations and
whether the loop completed. -/
def runBatchLoop (fails : Nat → Bool) : List (List Nat) → List Op × Bool
  | [] => ([], true)
  | b :: rest =>
    let ops := b.map Op.add
    if b.any fails then (ops, false)
    else
      let r := runBatchLoop fails rest
      (ops ++ r.1, r.2)

/-- The whole `benchmarkJobAddition` body as a trace: initial `cleanup`,
the batch loop, and — only if no submission failed — the final `cleanup`
and `queue.close`. -/
def runJobAddition (total batchSize : Nat) (fails : Nat → Bool) :
    List Op × Bool :=
  if (runBatchLoop fails (additionBatches total batchSize)).2 then
    (Op.cleanup :: (runBatchLoop fails (additionBatches total batchSize)).1
      ++ [Op.cleanup, Op.closeQueue], true)
  else (Op.cleanup :: (runBatchLoop fails (additionBatches total batchSize)).1,
    false)

/-! ### Further facts about `numBatches` -/

theorem numBatches_pos (total batchSize : Nat) (ht : 0 < total)
    (hb : 0 < batchSize) : 0 < numBatches total batchSize := by
  have h2 := total_le_numBatches_mul total batchSize hb
  rcases Nat.eq_zero_or_pos (numBatches total batchSize) with h | h
  · rw [h, Nat.zero_mul] at h2
    omega
  · exact h

theorem numBatches_eq_ceil (total batchSize : Nat) (ht : 0 < total)
    (hb : 0 < batchSize) :
    numBatches total batchSize = ⌈(total : ℚ) / (batchSize : ℚ)⌉₊ := by
  have hpos := numBatches_pos total batchSize ht hb
  have hbq : (0 : ℚ) < (batchSize : ℚ) := by exact_mod_cast hb
  symm
  rw [Nat.ceil_eq_iff (Nat.pos_iff_ne_zero.mp hpos)]
  constructor
  · rw [lt_div_iff₀ hbq]
    have h := mul_lt_of_lt_numBatches hb
      (show numBatches total batchSize - 1 < numBatches total batchSize by omega)
    exact_mod_cast h
  · rw [div_le_iff₀ hbq]
    exact_mod_cast total_le_numBatches_mul total batchSize hb

/-- Claim C1: for positive `total` and `batchSize`, the job-addition batch loop
issues exactly `⌈total / batchSize⌉` batches; every batch but the last has
size `batchSize`; the last has size `total - batchSize * ⌊total / batchSize⌋`
when `batchSize` does not divide `total` and `batchSize` otherwise; no batch
is empty; no batch reaches past `total`; the batch sizes sum to `total`, and
the concatenation of all batches is exactly the index list `0 .. total - 1`
(each index submitted exactly once). -/
theorem C1_batch_partition (total batchSize : Nat) (ht : 0 < total)
    (hb : 0 < batchSize) :
    (additionBatches total batchSize).length = ⌈(total : ℚ) / (batchSize : ℚ)⌉₊
    ∧ (∀ i, i + 1 < numBatches total batchSize →
        (batchIndices total batchSize i).length = batchSize)
    ∧ (batchIndices total batchSize (numBatches total batchSize - 1)).length
        = (if total % batchSize = 0 then batchSize
           else total - batchSize * (total / batchSize))
    ∧ (∀ i, i < numBatches total batchSize →
        0 < (batchIndices total batchSize i).length)
    ∧ (∀ i, i < numBatches total batchSize →
        ∀ x ∈ batchIndices total batchSize i, x < total)
    ∧ ((additionBatches total batchSize).map List.length).sum = total
    ∧ (additionBatches total batchSize).flatten = List.range total := by
  refine ⟨?_, ?_, ?_, ?_, ?_, ?_, ?_⟩
  · rw [show (additionBatches total batchSize).length
        = numBatches total batchSize by simp [additionBatches]]
    exact numBatches_eq_ceil total batchSize ht hb
  · intro i hi
    rw [batchIndices_length]
    have h := mul_lt_of_lt_numBatches hb hi
    have e : (i + 1) * batchSize = i * batchSize + batchSize := by ring
    omega
  · have h1 := numBatches_pos total batchSize ht hb
    have hL1 : (numBatches total batchSize - 1) * batchSize < total :=
      mul_lt_of_lt_numBatches hb (by omega)
    have hL2 := total_le_numBatches_mul total batchSize hb
    have hstep : (numBatches total batchSize - 1) * batchSize + batchSize
        = numBatches total batchSize * batchSize := by
      have h2 : numBatches total batchSize - 1 + 1 = numBatches total batchSize := by
        omega
      calc (numBatches total batchSize - 1) * batchSize + batchSize
          = (numBatches total batchSize - 1 + 1) * batchSize := by ring
      _ = numBatches total batchSize * batchSize := by rw [h2]
    have hdm := Nat.div_add_mod total batchSize
    have hCD : total / batchSize * batchSize = batchSize * (total / batchSize) :=
      Nat.mul_comm _ _
    rw [batchIndices_length]
    split_ifs with hr
    · have hnb : numBatches total batchSize = total / batchSize := by
        rw [numBatches_eq total batchSize hb, hr]
        simp
      have hBC : numBatches total batchSize * batchSize
          = total / batchSize * batchSize := by rw [hnb]
      omega
    · have hnb : numBatches total batchSize = total / batchSize + 1 := by
        rw [numBatches_eq total batchSize hb]
        simp [hr]
      have hA : (numBatches total batchSize - 1) * batchSize
          = total / batchSize * batchSize := by
        rw [hnb, Nat.add_sub_cancel]
      have hrlt : total % batchSize < batchSize := Nat.mod_lt _ hb
      omega
  · intro i hi
    rw [batchIndices_length]
    have h := mul_lt_of_lt_numBatches hb hi
    omega
  · intro i hi x hx
    rw [batchIndices_eq_range', List.mem_range'_1] at hx
    have h := mul_lt_of_lt_numBatches hb hi
    omega
  · rw [← List.length_flatten, join_additionBatches total batchSize hb,
      List.length_range]
  · exact join_additionBatches total batchSize hb

/-- Witness for C1 at `total = 7`, `batchSize = 3` (3 batches: 3, 3, 1). -/
theorem C1_batch_partition_witness :
    0 < 7 ∧ 0 < 3
    ∧ ((additionBatches 7 3).length = ⌈(7 : ℚ) / (3 : ℚ)⌉₊
      ∧ (∀ i, i + 1 < numBatches 7 3 → (batchIndices 7 3 i).length = 3)
      ∧ (batchIndices 7 3 (numBatches 7 3 - 1)).length
          = (if 7 % 3 = 0 then 3 else 7 - 3 * (7 / 3))
      ∧ (∀ i, i < numBatches 7 3 → 0 < (batchIndices 7 3 i).length)
      ∧ (∀ i, i < numBatches 7 3 → ∀ x ∈ batchIndices 7 3 i, x < 7)
      ∧ ((additionBatches 7 3).map List.length).sum = 7
      ∧ (additionBatches 7 3).flatten = List.range 7) :=
  ⟨by decide, by decide, C1_batch_partition 7 3 (by decide) (by decide)⟩

/-! ### Completion-tracker facts -/

theorem trackerRun_count (n : Nat) : ∀ k, (trackerRun n k).1 = k := by
  intro k
  induction k with
  | zero => rfl
  | succ k ih => simp [trackerRun, trackerStep, ih]

theorem trackerRun_signals (n : Nat) (hn : 1 ≤ n) :
    ∀ k, (trackerRun n k).2 = if k < n then 0 else 1 := by
  intro k
  induction k with
  | zero =>
    rw [if_pos (show 0 < n from hn)]
    rfl
  | succ k ih =>
    have hc := trackerRun_count n k
    simp only [trackerRun, trackerStep, hc]
    rw [ih]
    by_cases h : k + 1 = n
    · rw [if_pos (by omega : k < n), if_neg (by omega : ¬ k + 1 < n)]
      simp [h]
    · by_cases h2 : k + 1 < n
      · rw [if_pos (by omega : k < n), if_pos h2]
        simp [h]
      · rw [if_neg (by omega : ¬ k < n), if_neg h2]
        simp [h]

/-- Claim C2: for an expected count `n ≥ 1`, the `processed === numJobs` tracker
counts every notification; over any number `k` of notifications it never
signals while the count is below `n` and signals exactly once as soon as
`k` reaches `n`; a single notification signals exactly when it is the one
that makes the count reach `n`. -/
theorem C2_completion_tracker (n : Nat) (hn : 1 ≤ n) :
    (∀ k, (trackerRun n k).1 = k)
    ∧ (∀ k, k < n → (trackerRun n k).2 = 0)
    ∧ (∀ k, n ≤ k → (trackerRun n k).2 = 1)
    ∧ (∀ c, ((trackerStep n c).2 = true ↔ c + 1 = n)) := by
  refine ⟨trackerRun_count n, ?_, ?_, ?_⟩
  · intro k hk
    rw [trackerRun_signals n hn k, if_pos hk]
  · intro k hk
    rw [trackerRun_signals n hn k, if_neg (by omega)]
  · intro c
    simp [trackerStep]

/-- Witness for C2 at `n = 3`: no signal after 2 notifications, exactly one
after 3 and after 5. -/
theorem C2_completion_tracker_witness :
    1 ≤ 3
    ∧ ((∀ k, (trackerRun 3 k).1 = k)
      ∧ (∀ k, k < 3 → (trackerRun 3 k).2 = 0)
      ∧ (∀ k, 3 ≤ k → (trackerRun 3 k).2 = 1)
      ∧ (∀ c, ((trackerStep 3 c).2 = true ↔ c + 1 = 3))) :=
  ⟨by decide, C2_completion_tracker 3 (by decide)⟩

/-! ### Teardown-trace facts -/

/-- The batch loop itself only ever performs `add` operations. -/
theorem runBatchLoop_ops (fails : Nat → Bool) :
    ∀ bats : List (List Nat), ∀ op ∈ (runBatchLoop fails bats).1,
      ∃ i, op = Op.add i := by
  intro bats
  induction bats with
  | nil => intro op h; simp [runBatchLoop] at h
  | cons b rest ih =>
    intro op h
    simp only [runBatchLoop] at h
    split at h
    · rcases List.mem_map.mp h with ⟨i, _, rfl⟩
      exact ⟨i, rfl⟩
    · rcases List.mem_append.mp h with h2 | h2
      · rcases List.mem_map.mp h2 with ⟨i, _, rfl⟩
        exact ⟨i, rfl⟩
      · exact ih op h2

/-- Claim C6 (as the code actually behaves): the queue handle is closed iff the
scenario succeeds, and the trailing teardown `cleanup` runs only on the
success path — a failed submission aborts the scenario after the initial
`cleanup` with no teardown at all. -/
theorem C6_teardown_success_only (total batchSize : Nat) (fails : Nat → Bool) :
    (Op.closeQueue ∈ (runJobAddition total batchSize fails).1
      ↔ (runJobAddition total batchSize fails).2 = true)
    ∧ (runJobAddition total batchSize fails).1.count Op.cleanup
      = (if (runJobAddition total batchSize fails).2 then 2 else 1) := by
  have hops := runBatchLoop_ops fails (additionBatches total batchSize)
  have hclose : Op.closeQueue
      ∉ (runBatchLoop fails (additionBatches total batchSize)).1 := by
    intro h
    rcases hops _ h with ⟨i, hi⟩
    exact Op.noConfusion hi
  have hcount : (runBatchLoop fails (additionBatches total batchSize)).1.count
      Op.cleanup = 0 := by
    rw [List.count_eq_zero]
    intro h
    rcases hops _ h with ⟨i, hi⟩
    exact Op.noConfusion hi
  rw [runJobAddition]
  rcases hb2 : (runBatchLoop fails (additionBatches total batchSize)).2 with _ | _
  · simp only [Bool.false_eq_true, if_false]
    constructor
    · simp only [List.mem_cons]
      constructor
      · rintro (h | h)
        · exact Op.noConfusion h
        · exact absurd h hclose
      · intro h
        exact h.elim
    · simp [List.count_cons, hcount]
  · simp only [if_pos rfl]
    constructor
    · simp
    · simp [List.count_cons, List.count_append, hcount]

/-- Counterexample to C6 as stated: with a single job whose submission
fails, the scenario fails and its trace contains no `queue.close` and only
the initial `cleanup` — teardown is not performed on the failure path. -/
theorem C6_no_teardown_on_failure :
    (runJobAddition 1 1 (fun _ => true)).2 = false
    ∧ Op.closeQueue ∉ (runJobAddition 1 1 (fun _ => true)).1
    ∧ (runJobAddition 1 1 (fun _ => true)).1.count Op.cleanup = 1 := by
  decide

/-! ### Payload purity -/

/-- Claim C7: the function `generate` is a pure deterministic function of the index; payloads
for two indices share the identical fixed 100-character filler string and
differ only in the `index` field. -/
theorem C7_generate_pure (i j : Nat) :
    generate i = generate i
    ∧ (generate i).index = i
    ∧ (generate i).data = (generate j).data
    ∧ (generate i).data.length = 100 := by
  refine ⟨rfl, rfl, rfl, ?_⟩
  show filler.length = 100
  decide

/-! ### Fibonacci -/

/-- Claim C9: the handler's recursive Fibonacci terminates on every input (it is
a total function), agrees with the standard Fibonacci numbers everywhere,
and in particular `fib 20 = 6765`. -/
theorem C9_fib_total_and_standard :
    (∀ n, fib n = Nat.fib n) ∧ fib 20 = 6765 := by
  have h : ∀ n, fib n = Nat.fib n := by
    intro n
    induction n using Nat.strong_induction_on with
    | _ n ih =>
      rw [fib]
      by_cases h1 : n ≤ 1
      · rw [if_pos h1]
        interval_cases n <;> simp [Nat.fib]
      · rw [if_neg h1]
        push_neg at h1
        obtain ⟨m, rfl⟩ : ∃ m, n = m + 2 := ⟨n - 2, by omega⟩
        rw [ih (m + 2 - 1) (by omega), ih (m + 2 - 2) (by omega)]
        have h2 : m + 2 - 1 = m + 1 := by omega
        have h3 : m + 2 - 2 = m := by omega
        rw [h2, h3, Nat.fib_add_two]
        omega
  exact ⟨h, by rw [h 20]; decide⟩

/-! ### Rate computation -/

/-- Counterexample to C3 as stated: for `unitCount = 1` and
`elapsedMillis = 3000` the stored rate is `Math.round(1 / 3) = 0`, not the
exact `1 / (3000 / 1000) = 1/3`. -/
theorem C3_rounded_rate_counterexample :
    (jobAdditionResult 1 1 3000).rate ≠ (1 : ℚ) / (3000 / 1000) := by
  simp only [jobAdditionResult, rateRounded, rateExact]
  norm_num [round_eq]

/-- Claim C3 (amended): the `runtime-comparison.ts` result stores
`Math.round(unitCount / (elapsedMillis / 1000))` — the exact rate rounded
to the nearest integer — while `benchmark.js` stores the exact
`(count / duration) * 1000 = count / (duration / 1000)`; in both, the rate
is a pure function of the finalized count and elapsed time and the record
is immutable once constructed. -/
theorem C3_rate_from_finalized_time (jobs batchSize : Nat) (e : ℚ) :
    (jobAdditionResult jobs batchSize e).jobs = jobs
    ∧ (jobAdditionResult jobs batchSize e).timeMs = e
    ∧ (jobAdditionResult jobs batchSize e).rate
        = ((round ((jobs : ℚ) / (e / 1000)) : ℤ) : ℚ)
    ∧ (benchmarkAddJobsResult jobs e).jobsPerSecond
        = (jobs : ℚ) / (e / 1000) := by
  refine ⟨rfl, rfl, rfl, ?_⟩
  show ((jobs : ℚ) / e) * 1000 = (jobs : ℚ) / (e / 1000)
  rw [div_mul_eq_mul_div, div_div_eq_mul_div]

/-- Counterexample to C4 as stated: `rate(0, 0)` is `0 / (0 / 1000) = 0 / 0
= NaN` in JavaScript, not `0`. -/
theorem C4_rate_zero_zero_not_zero : jsRate 0 0 ≠ JSNum.num 0 := by
  simp [jsRate, jsDiv]

/-- Claim C4 (amended): for `elapsedMillis > 0` the rate is the exact quotient
`count / (elapsedMillis / 1000)`; at `count = 0`, `elapsedMillis = 0` no
exception is thrown but the result is the non-numeric `NaN`, not `0`; and
`rate(100, 1000) = 100`. -/
theorem C4_rate_division (c e : ℚ) (he : 0 < e) :
    jsRate c e = JSNum.num (c / (e / 1000))
    ∧ jsRate 0 0 = JSNum.nan
    ∧ jsRate 100 1000 = JSNum.num 100 := by
  refine ⟨?_, ?_, ?_⟩
  · rw [jsRate, jsDiv, if_pos (div_pos he (by norm_num)).ne']
  · simp [jsRate, jsDiv]
  · rw [jsRate, jsDiv, if_pos (by norm_num)]
    norm_num

/-- Witness for C4 at `count = 100`, `elapsedMillis = 1000`. -/
theorem C4_rate_division_witness :
    (0 : ℚ) < 1000
    ∧ (jsRate 100 1000 = JSNum.num (100 / (1000 / 1000))
      ∧ jsRate 0 0 = JSNum.nan
      ∧ jsRate 100 1000 = JSNum.num 100) :=
  ⟨by norm_num, C4_rate_division 100 1000 (by norm_num)⟩

/-- Counterexample to C5 as stated: for one flow finished in 9000 ms,
`runtime-comparison.ts` reports rate `Math.round(3 / 9) = 0`, not the exact
`(1 * 3) / (9000 / 1000) = 1/3`; and the `benchmark.js` flow scenario
reports `count = 1` (flows), not `1 * 3` units. -/
theorem C5_flow_counterexample :
    (flowProducerResult 1 9000).rate ≠ ((1 : ℚ) * 3) / (9000 / 1000)
    ∧ (benchmarkFlowsResult 1 1000).count ≠ 1 * 3 := by
  constructor
  · simp only [flowProducerResult, rateRounded, rateExact]
    norm_num [round_eq]
  · decide

/-- Claim C5 (amended): the file `runtime-comparison.ts` reports unit count `numFlows * 3`
and rate `Math.round((numFlows * 3) / (elapsed / 1000))` (rounded);
`benchmark.js` reports `count = numFlows` and `flowsPerSecond =
numFlows / (duration / 1000)` — flows per second, not units per second. -/
theorem C5_flow_reporting (n : Nat) (e : ℚ) :
    (flowProducerResult n e).jobs = n * 3
    ∧ (flowProducerResult n e).rate
        = ((round (((n : ℚ) * 3) / (e / 1000)) : ℤ) : ℚ)
    ∧ (benchmarkFlowsResult n e).count = n
    ∧ (benchmarkFlowsResult n e).flowsPerSecond = (n : ℚ) / (e / 1000) := by
  refine ⟨rfl, rfl, rfl, ?_⟩
  show ((n : ℚ) / e) * 1000 = (n : ℚ) / (e / 1000)
  rw [div_mul_eq_mul_div, div_div_eq_mul_div]

/-- Claim C8: for a fixed nonnegative count, both the exact rate and the rounded
rate are monotonically non-increasing in the elapsed time. -/
theorem C8_rate_antitone (count e1 e2 : ℚ) (hc : 0 ≤ count) (h1 : 0 < e1)
    (h12 : e1 ≤ e2) :
    rateExact count e2 ≤ rateExact count e1
    ∧ rateRounded count e2 ≤ rateRounded count e1 := by
  have hexact : rateExact count e2 ≤ rateExact count e1 := by
    rw [rateExact, rateExact]
    exact div_le_div_of_nonneg_left hc (div_pos h1 (by norm_num)) (by linarith)
  refine ⟨hexact, ?_⟩
  rw [rateRounded, rateRounded, round_eq, round_eq]
  exact Int.floor_mono (by linarith)

/-- Witness for C8 at `count = 100`, `e1 = 1000`, `e2 = 2000`. -/
theorem C8_rate_antitone_witness :
    (0 : ℚ) ≤ 100 ∧ (0 : ℚ) < 1000 ∧ (1000 : ℚ) ≤ 2000
    ∧ (rateExact 100 2000 ≤ rateExact 100 1000
      ∧ rateRounded 100 2000 ≤ rateRounded 100 1000) :=
  ⟨by norm_num, by norm_num, by norm_num,
    C8_rate_antitone 100 1000 2000 (by norm_num) (by norm_num) (by norm_num)⟩

/-! ### Equivalence of the two addition scenarios -/

theorem join_bulkChunks (total chunkSize : Nat) (hc : 0 < chunkSize) :
    (bulkChunks total chunkSize).flatten = List.range total :=
  join_additionBatches total chunkSize hc

/-- Claim C10: for any positive batch size and chunk size, the parallel-batch
addition loop and the chunked bulk-addition loop submit exactly the same
sequence — hence the same multiset — of `(name, payload)` pairs: the jobs
named `test-job` with payloads `{ index: i, data: 'x'.repeat(100) }` for
`i = 0 .. numJobs - 1`, each exactly once. -/
theorem C10_addition_bulk_equivalent (numJobs batchSize chunkSize : Nat)
    (hb : 0 < batchSize) (hc : 0 < chunkSize) :
    additionJobs numJobs batchSize = bulkJobs numJobs chunkSize
    ∧ additionJobs numJobs batchSize
        = (List.range numJobs).map (fun i => ("test-job", generate i))
    ∧ (↑(additionJobs numJobs batchSize) : Multiset (String × JobPayload))
        = ↑(bulkJobs numJobs chunkSize) := by
  have ha : additionJobs numJobs batchSize
      = (List.range numJobs).map (fun i => ("test-job", generate i)) := by
    rw [additionJobs, join_additionBatches numJobs batchSize hb]
  have hbk : bulkJobs numJobs chunkSize
      = (List.range numJobs).map (fun i => ("test-job", generate i)) := by
    rw [bulkJobs, join_bulkChunks numJobs chunkSize hc]
  refine ⟨ha.trans hbk.symm, ha, ?_⟩
  rw [ha.trans hbk.symm]

/-- Witness for C10 at `numJobs = 5`, `batchSize = 2`, `chunkSize = 3`. -/
theorem C10_addition_bulk_equivalent_witness :
    0 < 2 ∧ 0 < 3
    ∧ (additionJobs 5 2 = bulkJobs 5 3
      ∧ additionJobs 5 2 = (List.range 5).map (fun i => ("test-job", generate i))
      ∧ (↑(additionJobs 5 2) : Multiset (String × JobPayload))
          = ↑(bulkJobs 5 3)) :=
  ⟨by decide, by decide, C10_addition_bulk_equivalent 5 2 3 (by decide) (by decide)⟩

end BullBench
